import Mathlib

/-!
Verification of the `expect` Go assertion library against its design
specification.  The comparison/assertion engine (the file holding
`Expect`, `ToExpectation`, `ToAssertion`, `contains`, …) and the suite
runner (`runner.go`) are embedded shallowly below; Go runtime values are
modelled by the inductive `GoVal`.  Helpers that live in a companion
source file not included here (the comparator set, `SameKind`, `IsNil`,
the numeric widening helpers and the `PostHandler` signals) are modelled
from the specification; each such definition carries a doc comment
starting with "Modelled from the spec:".
-/

/-- Bit widths of the Go integer families. -/
inductive GoWidth where
  | w8
  | w16
  | w32
  | w64
deriving DecidableEq, Repr

/-- A Go runtime value as seen through `reflect`: nil-like values
(untyped nil, nil pointer/interface, nil map/slice), the signed and
unsigned integer families with their widths, strings, booleans, slices,
byte slices (`[]byte`, whose reflect kind is also `slice`) and maps. -/
inductive GoVal where
  | nilV : GoVal
  | intV : GoWidth → Int → GoVal
  | uintV : GoWidth → Nat → GoVal
  | strV : String → GoVal
  | boolV : Bool → GoVal
  | sliceV : List GoVal → GoVal
  | bytesV : List Nat → GoVal
  | mapV : List (GoVal × GoVal) → GoVal

mutual

/-- Structural equality on `GoVal`, the embedding of `reflect.DeepEqual`:
type- (constructor- and width-) sensitive, recursive on slices and maps. -/
def GoVal.beq : GoVal → GoVal → Bool
  | .nilV, .nilV => true
  | .intV w v, .intV w2 v2 => w == w2 && v == v2
  | .uintV w v, .uintV w2 v2 => w == w2 && v == v2
  | .strV s, .strV t => s == t
  | .boolV x, .boolV y => x == y
  | .sliceV xs, .sliceV ys => GoVal.beqList xs ys
  | .bytesV xs, .bytesV ys => xs == ys
  | .mapV xs, .mapV ys => GoVal.beqPairs xs ys
  | _, _ => false

/-- Element-wise `GoVal.beq` on lists. -/
def GoVal.beqList : List GoVal → List GoVal → Bool
  | [], [] => true
  | x :: xs, y :: ys => GoVal.beq x y && GoVal.beqList xs ys
  | _, _ => false

/-- Pair-wise `GoVal.beq` on key/value lists. -/
def GoVal.beqPairs : List (GoVal × GoVal) → List (GoVal × GoVal) → Bool
  | [], [] => true
  | (k, v) :: xs, (k2, v2) :: ys =>
      GoVal.beq k k2 && GoVal.beq v v2 && GoVal.beqPairs xs ys
  | _, _ => false

end

/-- Renders a list of byte values the way Go's `%v` does. -/
def natListStr : List Nat → String
  | [] => ""
  | [x] => toString x
  | x :: y :: rest => toString x ++ " " ++ natListStr (y :: rest)

mutual

/-- The embedding of Go's `%v` rendering for the values we model. -/
def govalStr : GoVal → String
  | .nilV => "<nil>"
  | .intV _ v => toString v
  | .uintV _ v => toString v
  | .strV s => s
  | .boolV b => if b then "true" else "false"
  | .sliceV xs => "[" ++ govalStrList xs ++ "]"
  | .bytesV bs => "[" ++ natListStr bs ++ "]"
  | .mapV ps => "map[" ++ govalStrPairs ps ++ "]"

/-- Space-separated rendering of slice elements. -/
def govalStrList : List GoVal → String
  | [] => ""
  | [x] => govalStr x
  | x :: y :: rest => govalStr x ++ " " ++ govalStrList (y :: rest)

/-- Space-separated rendering of map entries. -/
def govalStrPairs : List (GoVal × GoVal) → String
  | [] => ""
  | [(k, v)] => govalStr k ++ ":" ++ govalStr v
  | (k, v) :: p :: rest =>
      govalStr k ++ ":" ++ govalStr v ++ " " ++ govalStrPairs (p :: rest)

end

/-- The string Go's `reflect.Value.Kind()` prints for a value, used in
type-mismatch failure messages. -/
def kindStr : GoVal → String
  | .nilV => "invalid"
  | .intV _ _ => "int"
  | .uintV _ _ => "uint"
  | .strV _ => "string"
  | .boolV _ => "bool"
  | .sliceV _ => "slice"
  | .bytesV _ => "slice"
  | .mapV _ => "map"

/-- Does `pat` occur at the head of `s`?  Building block for the
embeddings of `strings.Contains` and `bytes.Contains`. -/
def listHasPre [DecidableEq α] : List α → List α → Bool
  | [], _ => true
  | _ :: _, [] => false
  | a :: as, b :: bs => a == b && listHasPre as bs

/-- Does `pat` occur anywhere in `s`?  Embeds `strings.Contains` /
`bytes.Contains` (the empty pattern is contained everywhere). -/
def listHasSub [DecidableEq α] (pat : List α) : List α → Bool
  | [] => pat.isEmpty
  | c :: rest => listHasPre pat (c :: rest) || listHasSub pat rest

/-- `strings.Contains s pat`. -/
def strHasSub (s pat : String) : Bool := listHasSub pat.toList s.toList

/-- Modelled from the spec: the kind families used by the Type
Normalizer — signed-integer-like, unsigned-integer-like, string, bool,
slice (which is also the reflect kind of `[]byte`) and map. -/
inductive GoKind where
  | intK
  | uintK
  | stringK
  | boolK
  | sliceK
  | mapK
deriving DecidableEq, Repr

/-- Modelled from the spec: the pass/fail signal every terminal
assertion method returns (`SuccessHandler` / `FailureHandler` in the
source). -/
inductive PostHandler where
  | success
  | failure
deriving DecidableEq, Repr

/-- Modelled from the spec: the pass signal. -/
abbrev SuccessHandler : PostHandler := PostHandler.success

/-- Modelled from the spec: the fail signal. -/
abbrev FailureHandler : PostHandler := PostHandler.failure

/-- Modelled from the spec: a Comparator is a pure function of
(normalized kind, actual, expected) returning whether the relation
holds.  Its defining file is not under src/. -/
def Comparitor := GoKind → GoVal → GoVal → Bool

/-- Modelled from the spec: "nil-like absence (untyped nil, nil
pointer/interface, nil map/slice)" — all of which `GoVal.nilV` stands
for. -/
def IsNil : GoVal → Bool
  | .nilV => true
  | _ => false

/-- Modelled from the spec: membership in the signed integer family. -/
def IsInt : GoVal → Bool
  | .intV _ _ => true
  | _ => false

/-- Modelled from the spec: membership in the unsigned integer family. -/
def IsUint : GoVal → Bool
  | .uintV _ _ => true
  | _ => false

/-- Modelled from the spec: numeric = any integer or float kind (floats
are not exercised by any claim and are not modelled). -/
def IsNumeric (v : GoVal) : Bool := IsInt v || IsUint v

/-- Widens a signed integer to the canonical 64-bit width, preserving
its mathematical value; other values pass through. -/
def widenInt : GoVal → GoVal
  | .intV _ v => .intV .w64 v
  | x => x

/-- Widens an unsigned integer to the canonical 64-bit width. -/
def widenUint : GoVal → GoVal
  | .uintV _ v => .uintV .w64 v
  | x => x

/-- Modelled from the spec: "widen both to a canonical 64-bit signed
representation" before comparison. -/
def ToInt64 (a b : GoVal) : GoVal × GoVal := (widenInt a, widenInt b)

/-- Modelled from the spec: canonical widening for the unsigned family. -/
def ToUint64 (a b : GoVal) : GoVal × GoVal := (widenUint a, widenUint b)

/-- Modelled from the spec: the type-mismatch check of the Type
Normalizer.  Two values are comparable when they belong to the same kind
family; the shared family is returned, `none` signals the mismatch. -/
def SameKind : GoVal → GoVal → Option GoKind
  | .intV _ _, .intV _ _ => some .intK
  | .uintV _ _, .uintV _ _ => some .uintK
  | .strV _, .strV _ => some .stringK
  | .boolV _, .boolV _ => some .boolK
  | .sliceV _, .sliceV _ => some .sliceK
  | .sliceV _, .bytesV _ => some .sliceK
  | .bytesV _, .sliceV _ => some .sliceK
  | .bytesV _, .bytesV _ => some .sliceK
  | .mapV _, .mapV _ => some .mapK
  | _, _ => none

/-- Strict numeric less-than on same-family values. -/
def numLT : GoVal → GoVal → Bool
  | .intV _ x, .intV _ y => x < y
  | .uintV _ x, .uintV _ y => x < y
  | _, _ => false

/-- Numeric less-or-equal on same-family values. -/
def numLE : GoVal → GoVal → Bool
  | .intV _ x, .intV _ y => x ≤ y
  | .uintV _ x, .uintV _ y => x ≤ y
  | _, _ => false

/-- Modelled from the spec: the equality Comparator — value equality on
scalars, falling back to deep value equality for non-scalar kinds. -/
def EqualsComparitor : Comparitor := fun _ a b => GoVal.beq a b

/-- Modelled from the spec: the greater-than Comparator. -/
def GreaterThanComparitor : Comparitor := fun _ a b => numLT b a

/-- Modelled from the spec: the less-than Comparator. -/
def LessThanComparitor : Comparitor := fun _ a b => numLT a b

/-- Modelled from the spec: the greater-or-equal Comparator. -/
def GreaterOrEqualToComparitor : Comparitor := fun _ a b => numLE b a

/-- Modelled from the spec: the less-or-equal Comparator. -/
def LessThanOrEqualToComparitor : Comparitor := fun _ a b => numLE a b

/-- A directional assertion: actual value, bound comparator, relation
label and invert flag (`ToAssertion` in the source). -/
structure ToAssertion where
  actual : GoVal
  comparitor : Comparitor
  display : String
  invert : Bool

/-- `newToAssertion` from the source: invert starts false. -/
def newToAssertion (a : GoVal) (c : Comparitor) (display : String) : ToAssertion :=
  ⟨a, c, display, false⟩

/-- The failure message built by `showError`: the relation label is
prefixed with "not " exactly when the invert flag is set. -/
def showError (actual expected : GoVal) (invert : Bool) (display : String) : String :=
  "expected " ++ govalStr actual ++ " " ++ (if invert then "not " else "")
    ++ display ++ " " ++ govalStr expected

/-- The value pair handed to the comparator by `ToAssertion.To`: signed
integers are widened via `ToInt64`, unsigned via `ToUint64`, everything
else passes through. -/
def normVals (actual expected : GoVal) : GoVal × GoVal :=
  if IsInt actual then ToInt64 actual expected
  else if IsUint actual then ToUint64 actual expected
  else (actual, expected)

/-- `ToAssertion.To` from the source.  Failure reports are modelled as
the second component (the messages the `Errorf` sink receives).  The
source also rebinds the reflect kind to Int64/Uint64 after widening;
`GoKind` keeps only the family so that rebinding is the identity here. -/
def ToAssertion.To (a : ToAssertion) (expected : GoVal) : PostHandler × List String :=
  match SameKind a.actual expected with
  | none =>
      (FailureHandler,
        ["expected " ++ govalStr a.actual ++ " " ++ a.display ++ " "
          ++ govalStr expected ++ " - type mismatch " ++ kindStr a.actual
          ++ " != " ++ kindStr expected])
  | some kind =>
      if a.comparitor kind (normVals a.actual expected).fst (normVals a.actual expected).snd == a.invert then
        (FailureHandler,
          [showError (normVals a.actual expected).fst (normVals a.actual expected).snd a.invert a.display])
      else (SuccessHandler, [])

/-- The helper `equal(assertion, a, b)` from the source, with the
assertion's mutable fields passed explicitly: nil-aware short circuit,
otherwise delegate to `ToAssertion.To` with the assertion's comparator.
Returns (check passed?, reported messages). -/
def equal (invert : Bool) (c : Comparitor) (display : String) (a b : GoVal) : Bool × List String :=
  if IsNil a || IsNil b then
    if (IsNil a == IsNil b) == invert then (false, [showError a b invert display])
    else (true, [])
  else
    ((ToAssertion.To ⟨a, c, display, invert⟩ b).fst == SuccessHandler,
      (ToAssertion.To ⟨a, c, display, invert⟩ b).snd)

/-- The `To` arm of an expectation (`ToExpectation` in the source). -/
structure ToExpectation where
  invert : Bool
  actual : GoVal
  others : List GoVal

/-- The relation label `ToExpectation.Equal` chooses. -/
def eqDisplay (invert : Bool) : String :=
  if invert then "to equal" else "to be equal to"

/-- `ToExpectation.Equal` from the source: check the primary pair, then
either report a count mismatch (when the secondary argument counts
differ) or check every secondary pair without early exit; any failed
check forces `FailureHandler`. -/
def ToExpectation.Equal (e : ToExpectation) (expected : GoVal) (others : List GoVal) :
    PostHandler × List String :=
  if others.length != e.others.length then
    (FailureHandler,
      (equal e.invert EqualsComparitor (eqDisplay e.invert) e.actual expected).snd ++
        ["mismatch number of values and expectations " ++ toString (e.others.length + 1)
          ++ " != " ++ toString (others.length + 1)])
  else
    (if (equal e.invert EqualsComparitor (eqDisplay e.invert) e.actual expected).fst == false
        || ((e.others.zip others).map
              (fun p => equal e.invert EqualsComparitor (eqDisplay e.invert) p.fst p.snd)).any
            (fun r => r.fst == false)
      then FailureHandler else SuccessHandler,
      (equal e.invert EqualsComparitor (eqDisplay e.invert) e.actual expected).snd ++
        (((e.others.zip others).map
            (fun p => equal e.invert EqualsComparitor (eqDisplay e.invert) p.fst p.snd)).map
          Prod.snd).flatten)

/-- Map-key presence, the embedding of `MapIndex(key).Kind() != Invalid`. -/
def mapHasKey (pairs : List (GoVal × GoVal)) (key : GoVal) : Bool :=
  pairs.any (fun p => GoVal.beq p.fst key)

/-- `contains` from the source: string actual needs a string expected
and does substring search; slice/array actual searches for an element
deep-equal to the expected value; a `[]byte` actual (also of slice kind)
first runs that element search and then, when both sides are `[]byte`,
byte-subsequence search; map actual checks key presence; every other
combination yields false. -/
def contains (actual expected : GoVal) : Bool :=
  match actual with
  | .strV s =>
      match expected with
      | .strV sub => strHasSub s sub
      | _ => false
  | .sliceV elems => elems.any (fun el => GoVal.beq el expected)
  | .bytesV bs =>
      if (bs.map (fun b => GoVal.uintV .w8 b)).any (fun el => GoVal.beq el expected) then true
      else
        match expected with
        | .bytesV ebs => listHasSub ebs bs
        | _ => false
  | .mapV pairs => mapHasKey pairs expected
  | _ => false

/-- `ToExpectation.Contain` from the source: polarity of `contains` is
checked against the invert flag, reporting "does not contain" or
"contains" accordingly. -/
def ToExpectation.Contain (e : ToExpectation) (expected : GoVal) : PostHandler × List String :=
  if e.invert == false && contains e.actual expected == false then
    (FailureHandler, [govalStr e.actual ++ " does not contain " ++ govalStr expected])
  else if e.invert == true && contains e.actual expected == true then
    (FailureHandler, [govalStr e.actual ++ " contains " ++ govalStr expected])
  else (SuccessHandler, [])

/-- A relational assertion (`ThanAssertion` in the source): wraps a
directional assertion, adding its own label and invert flag. -/
structure ThanAssertion where
  toA : ToAssertion
  display : String
  invert : Bool

/-- `newThanAssertion` from the source. -/
def newThanAssertion (actual : GoVal) (c : Comparitor) (toDisplay thanDisplay : String) :
    ThanAssertion :=
  ⟨newToAssertion actual c toDisplay, thanDisplay, false⟩

/-- The `Expectation` record built by `expect`: actual, others, the five
relation sub-assertions and the optional inverted sibling (`Not`). -/
inductive ExpectationT where
  | mk : GoVal → List GoVal → ThanAssertion → ToAssertion → ThanAssertion → ToAssertion →
      ToExpectation → Option ExpectationT → ExpectationT

/-- The `Greater` sub-assertion. -/
def ExpectationT.greaterA : ExpectationT → ThanAssertion
  | .mk _ _ g _ _ _ _ _ => g

/-- The `GreaterOrEqual` sub-assertion. -/
def ExpectationT.greaterOrEqualA : ExpectationT → ToAssertion
  | .mk _ _ _ ge _ _ _ _ => ge

/-- The `Less` sub-assertion. -/
def ExpectationT.lessA : ExpectationT → ThanAssertion
  | .mk _ _ _ _ l _ _ _ => l

/-- The `LessOrEqual` sub-assertion. -/
def ExpectationT.lessOrEqualA : ExpectationT → ToAssertion
  | .mk _ _ _ _ _ le _ _ => le

/-- The `To` sub-assertion. -/
def ExpectationT.toExp : ExpectationT → ToExpectation
  | .mk _ _ _ _ _ _ t _ => t

/-- The `Not` field. -/
def ExpectationT.notE : ExpectationT → Option ExpectationT
  | .mk _ _ _ _ _ _ _ n => n

/-- The body of `expect(actual, others, includeNot)` shared by both
branches: all five sub-assertions built eagerly, `Not` not yet set. -/
def expectBase (actual : GoVal) (others : List GoVal) : ExpectationT :=
  .mk actual others
    (newThanAssertion actual GreaterThanComparitor "to be greater than" "greater than")
    (newToAssertion actual GreaterOrEqualToComparitor "to be greater or equal to")
    (newThanAssertion actual LessThanComparitor "to be less than" "less than")
    (newToAssertion actual LessThanOrEqualToComparitor "to be less or equal to")
    ⟨false, actual, others⟩
    none

/-- `NotExpect` from the source: `expect(actual, others, false)` —
so its own `Not` field stays nil — with all five sub-assertions' invert
flags then set true. -/
def NotExpect (actual : GoVal) (others : List GoVal) : ExpectationT :=
  match expectBase actual others with
  | .mk a o g ge l le t _ =>
      .mk a o ⟨g.toA, g.display, true⟩ ⟨ge.actual, ge.comparitor, ge.display, true⟩
        ⟨l.toA, l.display, true⟩ ⟨le.actual, le.comparitor, le.display, true⟩
        ⟨true, t.actual, t.others⟩ none

/-- `Expect` from the source: `expect(actual, others, true)`, whose
`Not` field holds the inverted sibling. -/
def Expect (actual : GoVal) (others : List GoVal) : ExpectationT :=
  match expectBase actual others with
  | .mk a o g ge l le t _ => .mk a o g ge l le t (some (NotExpect actual others))

/-- One recorded assertion failure: message and source location. -/
structure Failure where
  message : String
  location : String

/-- The per-test `result` record of the runner (names and timing fields
carry no algorithmic content and are omitted): recorded failures, the
skip flag and the skip message. -/
structure TestResult where
  failures : List Failure
  skip : Bool
  skipMessage : String

/-- `result.Passed` from `runner.go`: skipped or no failures. -/
def TestResult.Passed (r : TestResult) : Bool := r.skip || r.failures.length == 0

/-- The terminal classification of a test. -/
inductive TestStatus where
  | skippedS
  | passedS
  | failedS
deriving DecidableEq, Repr

/-- The classification `result.Report` prints: the skip branch is taken
first, then pass, then fail with the failure list. -/
def TestResult.classify (r : TestResult) : TestStatus :=
  if r.skip then .skippedS else if r.Passed then .passedS else .failedS

/-- `finish`'s passed counter: results whose `Passed()` is true. -/
def passedCount (rs : List TestResult) : Nat :=
  (rs.filter (fun r => r.Passed)).length

/-- `finish`'s failed counter: total minus passed. -/
def failedCount (rs : List TestResult) : Nat := rs.length - passedCount rs

/-- Whitespace as matched by the regexp class `\s`. -/
def isWsChar (c : Char) : Bool :=
  c = ' ' || c = '\t' || c = '\n' || c = '\r' || c = '\x0c'

/-- ASCII digits, the regexp class `\d`. -/
def isDigitChar (c : Char) : Bool := '0' ≤ c && c ≤ '9'

/-- `strconv.Atoi` on a digit run. -/
def digitsToNat (ds : List Char) : Nat :=
  ds.foldl (fun acc c => acc * 10 + (c.toNat - '0'.toNat)) 0

/-- Drops a literal character sequence from the head of the input,
failing when it does not occur there. -/
def dropLit : List Char → List Char → Option (List Char)
  | [], s => some s
  | _ :: _, [] => none
  | l :: ls, c :: cs => if l = c then dropLit ls cs else none

/-- One attempt to match the regexp `(\d+) passed\s*(\d+) failed` at the
head of the input: on success returns both captured counts and the rest
of the input after the match.  The digit runs are maximal, which
coincides with the regexp's leftmost-match semantics here because a
digit can never satisfy the literal that follows the run. -/
def matchSummaryAt (s : List Char) : Option (Nat × Nat × List Char) :=
  match s.span isDigitChar with
  | (d1, r1) =>
    if d1.isEmpty then none
    else
      match dropLit " passed".toList r1 with
      | none => none
      | some r2 =>
        match (r2.dropWhile isWsChar).span isDigitChar with
        | (d2, r4) =>
          if d2.isEmpty then none
          else
            match dropLit " failed".toList r4 with
            | none => none
            | some r5 => some (digitsToNat d1, digitsToNat d2, r5)

/-- All successive leftmost matches of the summary pattern, fuelled by
the input length (each step consumes at least one character). -/
def findSummaryAux : Nat → List Char → List (Nat × Nat)
  | 0, _ => []
  | _ + 1, [] => []
  | fuel + 1, c :: rest =>
    match matchSummaryAt (c :: rest) with
    | some (p, f, rem) => (p, f) :: findSummaryAux fuel rem
    | none => findSummaryAux fuel rest

/-- The embedding of `FindAllStringSubmatch` for the summary pattern. -/
def findSummary (s : List Char) : List (Nat × Nat) := findSummaryAux s.length s

/-- `updatePersistedSummary` from `runner.go` as a pure function from the
existing file content and the run's counts to the rewritten content.
Only the first 128 bytes are read; the parsed counts are merged only
when the pattern matches exactly once; the color directives `@g`/`@r`
are kept literally (their terminal rendering is out of scope).  Note the
failed line interpolates the `passed` variable, mirroring
`color.Fprintf(file, "* @r%d failed\n", passed)` in the source. -/
def updatePersistedSummary (existing : String) (passed failed : Nat) : String :=
  match
    (if (existing.toList.take 128).length > 0 then
      match findSummary (existing.toList.take 128) with
      | [(ep, ef)] => (passed + ep, failed + ef)
      | _ => (passed, failed)
    else (passed, failed)) with
  | (p, f) =>
      "\n* @g" ++ toString p ++ " passed\n" ++
        (if f > 0 then "* @r" ++ toString p ++ " failed\n" else "* 0 failed\n")

/-- Observable events of one iteration of `Expectify`'s test loop. -/
inductive RunEvent where
  | hookEv : Nat → RunEvent
  | testBodyEv : RunEvent
  | reportEv : RunEvent
deriving DecidableEq, Repr

/-- The events produced by the closure `f` built in `Expectify`: it
calls the test method, then the completion/report logic. -/
def testThunkTrace : List RunEvent := [RunEvent.testBodyEv, RunEvent.reportEv]

/-- The event trace of one iteration of `Expectify`'s loop (runner.go
lines 93–110), with the suite's optional `Each` method abstracted as a
function from the trace of the thunk it receives to the trace of its own
execution: the registered `beforeEach` hooks run first, in order, and
only then is either `Each` invoked with the thunk, or the thunk run
directly. -/
def expectifyTestTrace (hooks : List Nat)
    (eachFn : Option (List RunEvent → List RunEvent)) : List RunEvent :=
  hooks.map RunEvent.hookEv ++
    (match eachFn with
      | some f => f testThunkTrace
      | none => testThunkTrace)

/-- Modelled from the spec: the claimed wiring, in which `Each` receives
a thunk wrapping (global hooks → test method → completion/report logic),
so the hooks would run only when and where `Each` invokes the thunk. -/
def expectifyTestTraceClaimed (hooks : List Nat)
    (eachFn : Option (List RunEvent → List RunEvent)) : List RunEvent :=
  match eachFn with
  | some f => f (hooks.map RunEvent.hookEv ++ testThunkTrace)
  | none => hooks.map RunEvent.hookEv ++ testThunkTrace

/-- C2: `Expect(5).To.Equal(5)` returns the pass signal;
`Expect(5).Not.To.Equal(5)` returns the fail signal; and
`Expect(5).To.Equal(6)` returns the fail signal and reports a failure
whose message contains both "5" and "6". -/
theorem spec_c2_equal_five_six :
    ((Expect (.intV .w64 5) []).toExp.Equal (.intV .w64 5) []).fst = SuccessHandler ∧
    ((Expect (.intV .w64 5) []).notE.map (fun n => (n.toExp.Equal (.intV .w64 5) []).fst))
      = some FailureHandler ∧
    ((Expect (.intV .w64 5) []).toExp.Equal (.intV .w64 6) []).fst = FailureHandler ∧
    ((Expect (.intV .w64 5) []).toExp.Equal (.intV .w64 6) []).snd.any
      (fun m => strHasSub m "5" && strHasSub m "6") = true := by
  refine ⟨by decide, by decide, by decide, by decide⟩

/-- C3: evaluation of the summary-merge step at the claim's input.  With
an existing file containing "3 passed\n0 failed" and a run producing
2 passed / 1 failed, the rewritten content carries the cumulative
"5 passed" line, but its failed-count line reads "5 failed" — the
source interpolates the merged `passed` total into the failed line —
not the merged failure total "1 failed" the claim requires. -/
theorem spec_c3_summary_merge_eval :
    updatePersistedSummary "3 passed\n0 failed" 2 1 = "\n* @g5 passed\n* @r5 failed\n" ∧
    strHasSub (updatePersistedSummary "3 passed\n0 failed" 2 1) "5 passed" = true ∧
    strHasSub (updatePersistedSummary "3 passed\n0 failed" 2 1) "1 failed" = false := by
  refine ⟨by decide, by decide, by decide⟩

/-- C7: sequence containment matches only single elements —
`Expect([]int{1,2,3}).To.Contain(2)` passes while
`Expect([]int{1,2,3}).To.Contain([]int{1,2})` fails — and string
containment is substring search — `Expect("hello world").To.Contain("world")`
passes and `Expect("hello world").Not.To.Contain("xyz")` passes. -/
theorem spec_c7_containment_examples :
    ((Expect (.sliceV [.intV .w64 1, .intV .w64 2, .intV .w64 3]) []).toExp.Contain
        (.intV .w64 2)).fst = SuccessHandler ∧
    ((Expect (.sliceV [.intV .w64 1, .intV .w64 2, .intV .w64 3]) []).toExp.Contain
        (.sliceV [.intV .w64 1, .intV .w64 2])).fst = FailureHandler ∧
    ((Expect (.strV "hello world") []).toExp.Contain (.strV "world")).fst = SuccessHandler ∧
    ((Expect (.strV "hello world") []).notE.map
        (fun n => (n.toExp.Contain (.strV "xyz")).fst)) = some SuccessHandler := by
  refine ⟨by decide, by decide, by decide, by decide⟩

/-- C10: every `Expect`-built expectation holds an inverted sibling
whose five relation sub-assertions all carry invert = true, while the
sibling's own `Not` field is nil (`none`), so a second `.Not` step has
no expectation to dereference at the public interface. -/
theorem spec_c10_not_structure (a : GoVal) (o : List GoVal) :
    ∃ ne, (Expect a o).notE = some ne ∧
      ne.greaterA.invert = true ∧
      ne.greaterOrEqualA.invert = true ∧
      ne.lessA.invert = true ∧
      ne.lessOrEqualA.invert = true ∧
      ne.toExp.invert = true ∧
      ne.notE = none := by
  exact ⟨NotExpect a o, rfl, rfl, rfl, rfl, rfl, rfl, rfl⟩

/-- C9 counterexample: with one registered hook and an `Each` method
that never invokes the thunk it is given, the runner still runs the hook
(before invoking `Each`), whereas the claimed wiring — the hooks living
inside the thunk handed to `Each` — would run nothing.  The claim is
therefore false of the code at this input. -/
theorem spec_c9_hooks_counterexample :
    expectifyTestTrace [0] (some (fun _ => [])) ≠
      expectifyTestTraceClaimed [0] (some (fun _ => [])) := by
  decide

/-- C9 amended: when an `Each` method with exactly one extra parameter
exists, the runner first runs the registered global hooks in
registration order, and only then invokes `Each` with a thunk wrapping
just the test method body followed by the completion/report logic (and
with no `Each`, the same hooks precede the thunk run directly). -/
theorem spec_c9_hooks_before_each (hooks : List Nat)
    (f : List RunEvent → List RunEvent) :
    expectifyTestTrace hooks (some f)
        = hooks.map RunEvent.hookEv ++ f [RunEvent.testBodyEv, RunEvent.reportEv] ∧
    expectifyTestTrace hooks none
        = hooks.map RunEvent.hookEv ++ [RunEvent.testBodyEv, RunEvent.reportEv] := by
  exact ⟨rfl, rfl⟩

/-- C8: a test in which a skip call occurred is classified Skipped when
its body completes, regardless of any recorded assertion failures, and
it never contributes to `finish`'s failed count. -/
theorem spec_c8_skip_precedence (r : TestResult) (h : r.skip = true) :
    r.classify = TestStatus.skippedS ∧
    r.Passed = true ∧
    ∀ rs : List TestResult, failedCount (r :: rs) = failedCount rs := by
  have hp : r.Passed = true := by simp [TestResult.Passed, h]
  refine ⟨by simp [TestResult.classify, h], hp, ?_⟩
  intro rs
  simp [failedCount, passedCount, List.filter, hp, Nat.succ_sub_succ]

/-- C8 witness: a concrete skipped result with one recorded failure is
classified Skipped, counts as passed, and leaves the failed count of a
run untouched. -/
theorem spec_c8_skip_precedence_witness :
    (TestResult.mk [Failure.mk "boom" "x_test.go:3"] true "skipped").classify
        = TestStatus.skippedS ∧
    (TestResult.mk [Failure.mk "boom" "x_test.go:3"] true "skipped").Passed = true ∧
    failedCount [TestResult.mk [Failure.mk "boom" "x_test.go:3"] true "skipped",
        TestResult.mk [Failure.mk "bad" "y_test.go:9"] false ""]
      = failedCount [TestResult.mk [Failure.mk "bad" "y_test.go:9"] false ""] := by
  refine ⟨(spec_c8_skip_precedence _ rfl).1, (spec_c8_skip_precedence _ rfl).2.1,
    (spec_c8_skip_precedence _ rfl).2.2 _⟩

/-- C1 counterexample: at actual 5, expected 6, invert false, the
equality comparator result XOR the invert flag is false, yet
`ToAssertion.To` reports a failure and returns the fail signal — the
claim's "otherwise pass is returned" is false of the code here. -/
theorem spec_c1_xor_counterexample :
    Bool.xor (EqualsComparitor GoKind.intK (GoVal.intV .w64 5) (GoVal.intV .w64 6)) false
        = false ∧
    ToAssertion.To ⟨GoVal.intV .w64 5, EqualsComparitor, "to be equal to", false⟩
        (GoVal.intV .w64 6)
      = (FailureHandler, ["expected 5 to be equal to 6"]) := by
  refine ⟨by decide, by decide⟩

/-- C1 amended: for a directional check on operands of a compatible kind
family, a failure is reported — with the normalized actual and expected
values and the relation label, prefixed "not " exactly when the invert
flag is set — and fail is returned precisely when the comparator result
EQUALS the invert flag (i.e. when comparator-result XOR invert is
false); otherwise pass is returned with nothing reported. -/
theorem spec_c1_directional_check (c : Comparitor) (d : String) (inv : Bool)
    (a e : GoVal) (k : GoKind) (hk : SameKind a e = some k) :
    ((ToAssertion.To ⟨a, c, d, inv⟩ e).fst = FailureHandler ↔
      c k (normVals a e).fst (normVals a e).snd = inv) ∧
    (c k (normVals a e).fst (normVals a e).snd = inv →
      (ToAssertion.To ⟨a, c, d, inv⟩ e).snd
        = ["expected " ++ govalStr (normVals a e).fst ++ " "
            ++ (if inv then "not " else "") ++ d ++ " " ++ govalStr (normVals a e).snd]) ∧
    (c k (normVals a e).fst (normVals a e).snd ≠ inv →
      ToAssertion.To ⟨a, c, d, inv⟩ e = (SuccessHandler, [])) := by
  by_cases hc : c k (normVals a e).fst (normVals a e).snd = inv <;>
    simp [ToAssertion.To, hk, hc, showError]

/-- C1 witness: the amended property applied at actual 5, expected 6,
equality comparator, invert false. -/
theorem spec_c1_directional_check_witness :
    (ToAssertion.To ⟨GoVal.intV .w64 5, EqualsComparitor, "to be equal to", false⟩
        (GoVal.intV .w64 6)).fst = FailureHandler :=
  (spec_c1_directional_check EqualsComparitor "to be equal to" false
      (GoVal.intV .w64 5) (GoVal.intV .w64 6) GoKind.intK rfl).1.mpr (by decide)

/-- C4: whenever at least one operand of the nil-aware `equal` helper is
nil-like, the outcome does not depend on the bound comparator (no
comparator is invoked), and the check passes exactly iff nil-likeness of
the two operands matches, XORed with the invert flag. -/
theorem spec_c4_nil_equality (c1 c2 : Comparitor) (inv : Bool) (d : String)
    (a b : GoVal) (h : (IsNil a || IsNil b) = true) :
    equal inv c1 d a b = equal inv c2 d a b ∧
    (equal inv c1 d a b).fst = Bool.xor (IsNil a == IsNil b) inv := by
  cases ha : IsNil a <;> cases hb : IsNil b <;> cases inv <;> simp_all [equal]

/-- C4 witness: the nil short-circuit applied at a nil-like actual and a
non-nil expected, under two different comparators. -/
theorem spec_c4_nil_equality_witness :
    equal false EqualsComparitor "to be equal to" GoVal.nilV (GoVal.intV .w64 5)
        = equal false GreaterThanComparitor "to be equal to" GoVal.nilV (GoVal.intV .w64 5) ∧
    (equal false EqualsComparitor "to be equal to" GoVal.nilV (GoVal.intV .w64 5)).fst
        = Bool.xor (IsNil GoVal.nilV == IsNil (GoVal.intV .w64 5)) false :=
  spec_c4_nil_equality EqualsComparitor GreaterThanComparitor false "to be equal to"
    GoVal.nilV (GoVal.intV .w64 5) rfl

/-- Kinds outside the containment dispatch of `contains` (not string,
not slice/array, not `[]byte`, not map). -/
def uncoveredContainKind : GoVal → Bool
  | .nilV => true
  | .intV _ _ => true
  | .uintV _ _ => true
  | .boolV _ => true
  | _ => false

/-- C6: a map actual treats the expected value as a key and `contains`
holds exactly on key presence; and every actual whose kind the
containment dispatch does not cover yields the "does not contain"
outcome — a reported failure and the fail signal when not inverted —
rather than crashing. -/
theorem spec_c6_map_and_default :
    (∀ (pairs : List (GoVal × GoVal)) (key : GoVal),
      contains (.mapV pairs) key = pairs.any (fun p => GoVal.beq p.fst key)) ∧
    (∀ (a e : GoVal) (o : List GoVal), uncoveredContainKind a = true →
      contains a e = false ∧
      ToExpectation.Contain ⟨false, a, o⟩ e
        = (FailureHandler, [govalStr a ++ " does not contain " ++ govalStr e])) := by
  constructor
  · intro pairs key
    rfl
  · intro a e o h
    have hc : contains a e = false := by
      cases a <;> simp_all [contains, uncoveredContainKind]
    exact ⟨hc, by simp [ToExpectation.Contain, hc]⟩

/-- C6 witness: an integer actual (a kind the dispatch does not cover)
yields false containment and the reported "does not contain" failure. -/
theorem spec_c6_map_and_default_witness :
    contains (GoVal.intV .w64 5) (GoVal.intV .w64 1) = false ∧
    ToExpectation.Contain ⟨false, GoVal.intV .w64 5, []⟩ (GoVal.intV .w64 1)
      = (FailureHandler, [govalStr (GoVal.intV .w64 5) ++ " does not contain "
          ++ govalStr (GoVal.intV .w64 1)]) :=
  spec_c6_map_and_default.2 (GoVal.intV .w64 5) (GoVal.intV .w64 1) [] rfl

/-- `ToAssertion.To` either passes with nothing reported or fails with
exactly one reported message. -/
theorem to_shape (a : ToAssertion) (e : GoVal) :
    ((ToAssertion.To a e).fst = SuccessHandler ∧ (ToAssertion.To a e).snd = []) ∨
    ((ToAssertion.To a e).fst = FailureHandler ∧ (ToAssertion.To a e).snd.length = 1) := by
  rcases hsk : SameKind a.actual e with _ | k
  · right
    simp [ToAssertion.To, hsk]
  · by_cases hc : a.comparitor k (normVals a.actual e).fst (normVals a.actual e).snd = a.invert
    · right
      simp [ToAssertion.To, hsk, hc]
    · left
      simp [ToAssertion.To, hsk, hc]

/-- The `equal` helper either passes with nothing reported or fails with
exactly one reported message. -/
theorem equal_shape (inv : Bool) (c : Comparitor) (d : String) (a b : GoVal) :
    ((equal inv c d a b).fst = true ∧ (equal inv c d a b).snd = []) ∨
    ((equal inv c d a b).fst = false ∧ (equal inv c d a b).snd.length = 1) := by
  by_cases hn : (IsNil a || IsNil b) = true
  · by_cases hm : ((IsNil a == IsNil b) == inv) = true
    · right
      simp [equal, hn, hm]
    · left
      simp [equal, hn, hm]
  · rcases to_shape ⟨a, c, d, inv⟩ b with ⟨h1, h2⟩ | ⟨h1, h2⟩
    · left
      simp [equal, hn, h1, h2]
    · right
      simp [equal, hn, h1, h2]

/-- The reported messages of the secondary-pair sweep of
`ToExpectation.Equal` number exactly the failing pairs: every pair is
evaluated and each failing pair contributes its own message. -/
theorem equal_sweep_length (inv : Bool) (c : Comparitor) (d : String) :
    ∀ l : List (GoVal × GoVal),
      (((l.map (fun p => equal inv c d p.fst p.snd)).map Prod.snd).flatten).length
        = l.countP (fun p => (equal inv c d p.fst p.snd).fst == false) := by
  intro l
  induction l with
  | nil => rfl
  | cons x xs ih =>
    simp only [List.map_cons, List.flatten_cons, List.length_append, List.countP_cons]
    rcases equal_shape inv c d x.fst x.snd with ⟨h1, h2⟩ | ⟨h1, h2⟩
    · rw [h2, ih, h1]
      simp
    · rw [h2, ih, h1]
      simp [Nat.add_comm]

/-- C5: in a multi-value `Equal` call, a secondary-count mismatch is
reported as its own distinct failure and forces the fail signal
regardless of the other checks; when the counts match, every positional
pair is evaluated with no early exit — the reported messages number
exactly the failing pairs — and the overall result is fail exactly when
the primary pair or any positional pair fails. -/
theorem spec_c5_multi_value (inv : Bool) (actual : GoVal) (aOthers : List GoVal)
    (expected : GoVal) (eOthers : List GoVal) :
    (eOthers.length ≠ aOthers.length →
      (ToExpectation.Equal ⟨inv, actual, aOthers⟩ expected eOthers).fst = FailureHandler ∧
      ("mismatch number of values and expectations " ++ toString (aOthers.length + 1)
          ++ " != " ++ toString (eOthers.length + 1))
        ∈ (ToExpectation.Equal ⟨inv, actual, aOthers⟩ expected eOthers).snd) ∧
    (eOthers.length = aOthers.length →
      ((ToExpectation.Equal ⟨inv, actual, aOthers⟩ expected eOthers).fst = FailureHandler ↔
        (equal inv EqualsComparitor (eqDisplay inv) actual expected).fst = false ∨
          ∃ p ∈ aOthers.zip eOthers,
            (equal inv EqualsComparitor (eqDisplay inv) p.fst p.snd).fst = false) ∧
      (ToExpectation.Equal ⟨inv, actual, aOthers⟩ expected eOthers).snd.length =
        (if (equal inv EqualsComparitor (eqDisplay inv) actual expected).fst then 0 else 1) +
          (aOthers.zip eOthers).countP
            (fun p => (equal inv EqualsComparitor (eqDisplay inv) p.fst p.snd).fst == false)) := by
  constructor
  · intro h
    have hb : (eOthers.length != aOthers.length) = true := by
      simpa [bne_iff_ne] using h
    constructor
    · simp [ToExpectation.Equal, hb]
    · simp [ToExpectation.Equal, hb]
  · intro h
    have hb : (eOthers.length != aOthers.length) = false := by
      simp [h]
    have e1 : ToExpectation.Equal ⟨inv, actual, aOthers⟩ expected eOthers
        = (if ((equal inv EqualsComparitor (eqDisplay inv) actual expected).fst == false
              || ((aOthers.zip eOthers).map
                    (fun p => equal inv EqualsComparitor (eqDisplay inv) p.fst p.snd)).any
                  (fun r => r.fst == false))
            then FailureHandler else SuccessHandler,
          (equal inv EqualsComparitor (eqDisplay inv) actual expected).snd ++
            (((aOthers.zip eOthers).map
                (fun p => equal inv EqualsComparitor (eqDisplay inv) p.fst p.snd)).map
              Prod.snd).flatten) := by
      simp [ToExpectation.Equal, hb]
    have key : ((equal inv EqualsComparitor (eqDisplay inv) actual expected).fst == false
          || ((aOthers.zip eOthers).map
                (fun p => equal inv EqualsComparitor (eqDisplay inv) p.fst p.snd)).any
              (fun r => r.fst == false)) = true
        ↔ ((equal inv EqualsComparitor (eqDisplay inv) actual expected).fst = false ∨
            ∃ p ∈ aOthers.zip eOthers,
              (equal inv EqualsComparitor (eqDisplay inv) p.fst p.snd).fst = false) := by
      rw [Bool.or_eq_true]
      constructor
      · rintro (h1 | h2)
        · exact Or.inl (eq_of_beq h1)
        · rcases List.any_eq_true.mp h2 with ⟨r, hr, hpr⟩
          rcases List.mem_map.mp hr with ⟨p, hp, rfl⟩
          exact Or.inr ⟨p, hp, eq_of_beq hpr⟩
      · rintro (h1 | ⟨p, hp, h2⟩)
        · refine Or.inl ?_
          rw [h1]
          rfl
        · refine Or.inr (List.any_eq_true.mpr
            ⟨equal inv EqualsComparitor (eqDisplay inv) p.fst p.snd,
              List.mem_map.mpr ⟨p, hp, rfl⟩, ?_⟩)
          rw [h2]
          rfl
    have hfst : (ToExpectation.Equal ⟨inv, actual, aOthers⟩ expected eOthers).fst
        = (if ((equal inv EqualsComparitor (eqDisplay inv) actual expected).fst == false
              || ((aOthers.zip eOthers).map
                    (fun p => equal inv EqualsComparitor (eqDisplay inv) p.fst p.snd)).any
                  (fun r => r.fst == false))
            then FailureHandler else SuccessHandler) := by
      rw [e1]
    constructor
    · cases hcond : ((equal inv EqualsComparitor (eqDisplay inv) actual expected).fst == false
          || ((aOthers.zip eOthers).map
                (fun p => equal inv EqualsComparitor (eqDisplay inv) p.fst p.snd)).any
              (fun r => r.fst == false)) with
      | true =>
          rw [hfst, hcond, if_pos rfl]
          exact iff_of_true rfl (key.mp hcond)
      | false =>
          rw [hfst, hcond, if_neg Bool.false_ne_true]
          refine iff_of_false (by decide) (fun hr => ?_)
          exact absurd ((key.mpr hr).symm.trans hcond) (by decide)
    · rw [e1]
      simp only [List.length_append]
      rw [equal_sweep_length]
      rcases equal_shape inv EqualsComparitor (eqDisplay inv) actual expected with
        ⟨h1, h2⟩ | ⟨h1, h2⟩
      · rw [h2, h1]
        simp
      · rw [h2, h1]
        simp

/-- C5 witness: a count mismatch (one secondary actual, no secondary
expected) returns fail, and a matching-count call with a mismatched
secondary pair returns fail. -/
theorem spec_c5_multi_value_witness :
    (ToExpectation.Equal ⟨false, GoVal.intV .w64 1, [GoVal.boolV true]⟩
        (GoVal.intV .w64 1) []).fst = FailureHandler ∧
    (ToExpectation.Equal ⟨false, GoVal.intV .w64 1, [GoVal.boolV true]⟩
        (GoVal.intV .w64 1) [GoVal.boolV false]).fst = FailureHandler := by
  constructor
  · exact ((spec_c5_multi_value false (GoVal.intV .w64 1) [GoVal.boolV true]
      (GoVal.intV .w64 1) []).1 (by decide)).1
  · exact ((spec_c5_multi_value false (GoVal.intV .w64 1) [GoVal.boolV true]
      (GoVal.intV .w64 1) [GoVal.boolV false]).2 rfl).1.mpr
      (Or.inr ⟨(GoVal.boolV true, GoVal.boolV false), List.Mem.head _, by decide⟩)
